import Mathlib

/-
Verification of the collaborative-canvas session coordination and
ordered-action-log subsystem, embedded shallowly from the TypeScript
sources (server/src/HistoryStore.ts, server/src/RoomManager.ts,
server/src/index.ts, client main redrawAll).  Mutable classes become
explicit state passing; JavaScript Map objects become association lists
with Map.set / Map.get / Map.delete semantics; Date.now() and
randomUUID() / Math.random() become explicit parameters.
-/

namespace Canvas

/-- Stroke, from types.ts: id, userId, color, width, points, isFinished,
and an optional client-assigned wall-clock timestamp. Coordinates are
modelled as integers; none of the verified logic inspects them. -/
structure Stroke where
  id : String
  userId : String
  color : String
  width : Int
  points : List (Int × Int)
  isFinished : Bool
  timestamp : Option Int
deriving DecidableEq

/-- DrawingActionType, from types.ts. -/
inductive DrawingActionType where
  | STROKE_DRAW
  | STROKE_ERASE
  | CLEAR_ALL
deriving DecidableEq

/-- DrawingAction, from types.ts: the data field is in practice always a
Stroke, so it is typed as one here. -/
structure DrawingAction where
  id : String
  type : DrawingActionType
  userId : String
  timestamp : Int
  data : Stroke
deriving DecidableEq

/-- HistoryStore state, from HistoryStore.ts: the ordered action history
plus the redo stack. -/
structure HistoryStore where
  history : List DrawingAction
  redoStack : List DrawingAction
deriving DecidableEq

/-- A fresh HistoryStore, as built by the HistoryStore constructor. -/
def HistoryStore.empty : HistoryStore := ⟨[], []⟩

/-- HistoryStore.addStroke: builds an action with a fresh id (randomUUID)
and the current time (Date.now), both passed explicitly, pushes it onto
history and clears the redo stack.  Returns the action and the new
store state. -/
def HistoryStore.addStroke (s : HistoryStore) (fresh : String) (now : Int)
    (stroke : Stroke) : DrawingAction × HistoryStore :=
  let action : DrawingAction :=
    ⟨fresh, DrawingActionType.STROKE_DRAW, stroke.userId, now, stroke⟩
  (action, ⟨s.history ++ [action], []⟩)

/-- HistoryStore.addErase: same as addStroke but records a STROKE_ERASE
action. -/
def HistoryStore.addErase (s : HistoryStore) (fresh : String) (now : Int)
    (stroke : Stroke) : DrawingAction × HistoryStore :=
  let action : DrawingAction :=
    ⟨fresh, DrawingActionType.STROKE_ERASE, stroke.userId, now, stroke⟩
  (action, ⟨s.history ++ [action], []⟩)

/-- HistoryStore.undo: if the history is empty returns it unchanged,
otherwise pops the last action onto the redo stack.  Returns the
history snapshot handed to clients and the new store state. -/
def HistoryStore.undo (s : HistoryStore) : List DrawingAction × HistoryStore :=
  match s.history.getLast? with
  | none => (s.history, s)
  | some lastAction =>
      (s.history.dropLast, ⟨s.history.dropLast, s.redoStack ++ [lastAction]⟩)

/-- HistoryStore.redo: if the redo stack is empty returns the history
unchanged, otherwise pops the last undone action back onto the
history. -/
def HistoryStore.redo (s : HistoryStore) : List DrawingAction × HistoryStore :=
  match s.redoStack.getLast? with
  | none => (s.history, s)
  | some action =>
      (s.history ++ [action], ⟨s.history ++ [action], s.redoStack.dropLast⟩)

/-- HistoryStore.getHistory: a copy of the history list. -/
def HistoryStore.getHistory (s : HistoryStore) : List DrawingAction :=
  s.history

/-- HistoryStore.clear: resets both the history and the redo stack. -/
def HistoryStore.clear (_s : HistoryStore) : HistoryStore := ⟨[], []⟩

/-- Sort key used by HistoryStore.getCurrentState: the stroke timestamp
with a default of zero, from the source expression (a.timestamp ?? 0). -/
def strokeKey (a : Stroke) : Int := a.timestamp.getD 0

/-- Filter kept by getCurrentState and redrawAll: draw and erase actions
only. -/
def isDrawOrErase (a : DrawingAction) : Bool :=
  decide (a.type = DrawingActionType.STROKE_DRAW) ||
    decide (a.type = DrawingActionType.STROKE_ERASE)

/-- Comparator order used by getCurrentState: ascending stroke
timestamp key. -/
def strokeLe (a b : Stroke) : Prop := strokeKey a ≤ strokeKey b

instance : DecidableRel strokeLe :=
  fun a b => inferInstanceAs (Decidable (strokeKey a ≤ strokeKey b))

instance : IsTotal Stroke strokeLe :=
  ⟨fun a b => Int.le_total (strokeKey a) (strokeKey b)⟩

instance : IsTrans Stroke strokeLe :=
  ⟨fun _ _ _ h1 h2 => le_trans h1 h2⟩

/-- Comparator order used by the client redrawAll: ascending action
timestamp (the source key (a.timestamp || 0) coincides with a.timestamp
on integers). -/
def actionLe (a b : DrawingAction) : Prop := a.timestamp ≤ b.timestamp

instance : DecidableRel actionLe :=
  fun a b => inferInstanceAs (Decidable (a.timestamp ≤ b.timestamp))

instance : IsTotal DrawingAction actionLe :=
  ⟨fun a b => Int.le_total a.timestamp b.timestamp⟩

instance : IsTrans DrawingAction actionLe :=
  ⟨fun _ _ _ h1 h2 => le_trans h1 h2⟩

/-- HistoryStore.getCurrentState: filters the history down to draw and
erase actions, projects out their stroke payloads, and sorts them by the
stroke timestamp.  ECMAScript Array.sort with this comparator is exactly
a stable ascending sort, modelled by the stable insertionSort. -/
def HistoryStore.getCurrentState (s : HistoryStore) : List Stroke :=
  List.insertionSort strokeLe ((s.history.filter isDrawOrErase).map
    (fun a => a.data))

/-- The sortedActions list built inside the client redrawAll function:
draw and erase actions of the synced history, stably sorted by the
action timestamp. -/
def redrawOrder (history : List DrawingAction) : List DrawingAction :=
  List.insertionSort actionLe (history.filter isDrawOrErase)

/-- The client redrawAll replay: each sorted action is drawn as its
stroke payload together with the eraser flag. -/
def redrawAll (history : List DrawingAction) : List (Stroke × Bool) :=
  (redrawOrder history).map
    (fun a => (a.data, decide (a.type = DrawingActionType.STROKE_ERASE)))

/-- JavaScript Map.get on an association list (keys are unique by
construction). -/
def mapGet {α : Type} (k : String) : List (String × α) → Option α
  | [] => none
  | (k', v) :: rest => if k' = k then some v else mapGet k rest

/-- JavaScript Map.set: overwrites the value in place when the key is
present, otherwise appends (Map preserves insertion order). -/
def mapSet {α : Type} (k : String) (v : α) : List (String × α) → List (String × α)
  | [] => [(k, v)]
  | (k', v') :: rest =>
      if k' = k then (k, v) :: rest else (k', v') :: mapSet k v rest

/-- JavaScript Map.delete: removes the entry for the key when present. -/
def mapDelete {α : Type} (k : String) : List (String × α) → List (String × α)
  | [] => []
  | (k', v') :: rest =>
      if k' = k then rest else (k', v') :: mapDelete k rest

/-- The server-side roomHistories map from index.ts: one HistoryStore per
room id. -/
abbrev RoomHistories := List (String × HistoryStore)

/-- The roomHistories map at server start: just the default main room
store. -/
def initialHistories : RoomHistories := [("main", HistoryStore.empty)]

/-- getHistoryStore from index.ts: lazily inserts an empty store for an
unknown room id and returns the store for the id together with the
(possibly extended) map. -/
def getHistoryStore (roomId : String) (m : RoomHistories) :
    HistoryStore × RoomHistories :=
  match mapGet roomId m with
  | some h => (h, m)
  | none => (HistoryStore.empty, mapSet roomId HistoryStore.empty m)

/-- The log snapshot an operation scoped to a room observes: the history
of that room's store (empty when the room has no store yet). -/
def roomSnapshot (roomId : String) (m : RoomHistories) : List DrawingAction :=
  (getHistoryStore roomId m).1.getHistory

/-- One append request routed to a room, as performed by the draw_finish
and erase handlers: room id, fresh action id, current time, payload, and
whether it is an erase. -/
structure AppendOp where
  room : String
  fresh : String
  now : Int
  stroke : Stroke
  isErase : Bool
deriving DecidableEq

/-- The action an AppendOp appends, per HistoryStore.addStroke and
HistoryStore.addErase. -/
def opAction (op : AppendOp) : DrawingAction :=
  ⟨op.fresh,
    if op.isErase then DrawingActionType.STROKE_ERASE
    else DrawingActionType.STROKE_DRAW,
    op.stroke.userId, op.now, op.stroke⟩

/-- Apply one append request to the server roomHistories map, as the
draw_finish and erase handlers do: resolve the store for the room and
push the new action. -/
def applyAppend (m : RoomHistories) (op : AppendOp) : RoomHistories :=
  let gh := getHistoryStore op.room m
  let store :=
    if op.isErase then (gh.1.addErase op.fresh op.now op.stroke).2
    else (gh.1.addStroke op.fresh op.now op.stroke).2
  mapSet op.room store gh.2

/-- Apply an interleaved sequence of append requests across rooms. -/
def applyAppends (m : RoomHistories) (ops : List AppendOp) : RoomHistories :=
  ops.foldl applyAppend m

/-- Outbound events the structural handlers produce.  broadcastStroke
models socket.broadcast.to(room).emit (all members except the sender);
historySync, canvasCleared and usersUpdate model io.to(room).emit (all
members of the room). -/
inductive ServerEvent where
  | broadcastStroke (room : String) (eventName : String) (data : Stroke)
  | historySync (room : String) (entries : List DrawingAction)
  | canvasCleared (room : String)
  | usersUpdate (room : String) (users : List String)
deriving DecidableEq

/-- The draw_finish handler from index.ts.  currentRoomId is the
per-connection room variable; the result is the new roomHistories map,
the list of events emitted to other members, and whether the
acknowledgment callback was invoked.  When the connection is not in a
room the handler returns immediately; when it is, the stroke is stored
and only the sender is acknowledged — nothing is broadcast. -/
def drawFinishHandler (currentRoomId : Option String) (m : RoomHistories)
    (data : Stroke) (fresh : String) (now : Int) :
    RoomHistories × List ServerEvent × Bool :=
  match currentRoomId with
  | none => (m, [], false)
  | some r =>
      let gh := getHistoryStore r m
      (mapSet r (gh.1.addStroke fresh now data).2 gh.2, [], true)

/-- The erase handler from index.ts: stores the erase action, broadcasts
it to the other members of the room, and acknowledges the sender. -/
def eraseHandler (currentRoomId : Option String) (m : RoomHistories)
    (data : Stroke) (fresh : String) (now : Int) :
    RoomHistories × List ServerEvent × Bool :=
  match currentRoomId with
  | none => (m, [], false)
  | some r =>
      let gh := getHistoryStore r m
      (mapSet r (gh.1.addErase fresh now data).2 gh.2,
        [ServerEvent.broadcastStroke r "erase" data], true)

/-- The undo handler from index.ts: pops the last action and sends the
updated history to the whole room. -/
def undoHandler (currentRoomId : Option String) (m : RoomHistories) :
    RoomHistories × List ServerEvent × Bool :=
  match currentRoomId with
  | none => (m, [], false)
  | some r =>
      let gh := getHistoryStore r m
      let ur := gh.1.undo
      (mapSet r ur.2 gh.2, [ServerEvent.historySync r ur.1], true)

/-- The redo handler from index.ts: restores the last undone action and
sends the updated history to the whole room. -/
def redoHandler (currentRoomId : Option String) (m : RoomHistories) :
    RoomHistories × List ServerEvent × Bool :=
  match currentRoomId with
  | none => (m, [], false)
  | some r =>
      let gh := getHistoryStore r m
      let rr := gh.1.redo
      (mapSet r rr.2 gh.2, [ServerEvent.historySync r rr.1], true)

/-- The clear_canvas handler from index.ts: resets the room store and
notifies the whole room. -/
def clearHandler (currentRoomId : Option String) (m : RoomHistories) :
    RoomHistories × List ServerEvent × Bool :=
  match currentRoomId with
  | none => (m, [], false)
  | some r =>
      let gh := getHistoryStore r m
      (mapSet r gh.1.clear gh.2,
        [ServerEvent.canvasCleared r, ServerEvent.historySync r []], true)

/-- User, from the server types: socket id, assigned color, display
name. -/
structure User where
  id : String
  color : String
  name : String
deriving DecidableEq

/-- Room, from the server types, as built by RoomManager.createRoom.
The users Map holds User objects that are the very objects stored in
socketToUser, so the membership Map is modelled by its key list (in
insertion order) and members are dereferenced through socketToUser;
the history and historyIndex fields are initialized and never used. -/
structure Room where
  id : String
  name : String
  users : List String
  history : List DrawingAction
  historyIndex : Nat
deriving DecidableEq

/-- RoomManager state: the rooms map, the userToRoom map and the
socketToUser map. -/
structure RoomManager where
  rooms : List (String × Room)
  userToRoom : List (String × String)
  socketToUser : List (String × User)
deriving DecidableEq

/-- RoomManager.createRoom: installs a fresh empty room under the id. -/
def RoomManager.createRoom (rm : RoomManager) (roomId roomName : String) :
    Room × RoomManager :=
  let room : Room := ⟨roomId, roomName, [], [], 0⟩
  (room, { rm with rooms := mapSet roomId room rm.rooms })

/-- The RoomManager constructor: empty maps plus the default room
createRoom("main", "Main Canvas"). -/
def RoomManager.init : RoomManager :=
  (RoomManager.createRoom ⟨[], [], []⟩ "main" "Main Canvas").2

/-- The hexadecimal digit string indexed by generateRandomColor. -/
def hexChars : List Char :=
  ['0', '1', '2', '3', '4', '5', '6', '7', '8', '9', 'A', 'B', 'C', 'D', 'E', 'F']

/-- RoomManager.generateRandomColor: a hash sign followed by six digits
picked from hexChars; the six Math.random draws are passed explicitly. -/
def generateRandomColor (draws : Fin 6 → Fin 16) : String :=
  "#" ++ String.mk ((List.finRange 6).map (fun i => hexChars.get
    ⟨(draws i).val, (draws i).isLt⟩))

/-- Map.set on the key list of a room users Map: an existing key keeps
its position, a new key is appended. -/
def idSet (k : String) (l : List String) : List String :=
  if k ∈ l then l else l ++ [k]

/-- RoomManager.addUserToRoom: throws when the room does not exist;
otherwise builds the User (id = socket id, random color, name derived
from the first five characters of the socket id — substring(0, 5) is
String.take 5) and registers it in the room users Map, userToRoom and
socketToUser.  The previous room membership, if any, is not touched. -/
def RoomManager.addUserToRoom (rm : RoomManager) (socketId roomId : String)
    (draws : Fin 6 → Fin 16) : Except String (User × RoomManager) :=
  match mapGet roomId rm.rooms with
  | none => Except.error ("Room " ++ roomId ++ " not found")
  | some room =>
      let color := generateRandomColor draws
      let user : User := ⟨socketId, color, "User-" ++ socketId.take 5⟩
      Except.ok (user,
        { rm with
          rooms := mapSet roomId { room with users := idSet socketId room.users }
            rm.rooms,
          userToRoom := mapSet socketId roomId rm.userToRoom,
          socketToUser := mapSet socketId user rm.socketToUser })

/-- RoomManager.removeUser: removes the user from the room recorded in
userToRoom (when any) and always drops the socketToUser entry. -/
def RoomManager.removeUser (rm : RoomManager) (socketId : String) : RoomManager :=
  let rm1 :=
    match mapGet socketId rm.userToRoom with
    | none => rm
    | some roomId =>
        match mapGet roomId rm.rooms with
        | none => { rm with userToRoom := mapDelete socketId rm.userToRoom }
        | some room =>
            { rm with
              rooms := mapSet roomId
                { room with users := room.users.erase socketId } rm.rooms,
              userToRoom := mapDelete socketId rm.userToRoom }
  { rm1 with socketToUser := mapDelete socketId rm1.socketToUser }

/-- RoomManager.getUsersInRoom: the User objects of a room users Map in
insertion order, dereferenced through socketToUser (the Map values are
those shared objects). -/
def RoomManager.getUsersInRoom (rm : RoomManager) (roomId : String) : List User :=
  match mapGet roomId rm.rooms with
  | none => []
  | some room => room.users.filterMap (fun sid => mapGet sid rm.socketToUser)

/-- RoomManager.updateUserName: when the socket has a registered user,
rebinds it with the new display name (the source mutates the shared
User object name field in place; id and color are untouched); an
unknown socket id is a no-op. -/
def RoomManager.updateUserName (rm : RoomManager) (socketId newName : String) :
    RoomManager :=
  match mapGet socketId rm.socketToUser with
  | none => rm
  | some user =>
      { rm with socketToUser :=
          mapSet socketId (User.mk user.id user.color newName) rm.socketToUser }

/-- The join_room handler body from index.ts, on success: registers the
user via addUserToRoom, then emits history_sync with the room store
history (getHistoryStore creates the store lazily) and users_update with
the post-join roster.  The result carries what the joining caller
receives — the member, the log snapshot and the roster — plus the new
server state.  An addUserToRoom error is reported through the callback
and nothing is mutated. -/
def joinRoom (rm : RoomManager) (m : RoomHistories)
    (socketId roomId : String) (draws : Fin 6 → Fin 16) :
    Except String ((User × List DrawingAction × List User) ×
      (RoomManager × RoomHistories)) :=
  match rm.addUserToRoom socketId roomId draws with
  | Except.error e => Except.error e
  | Except.ok (user, rm') =>
      let gh := getHistoryStore roomId m
      Except.ok ((user, gh.1.getHistory, rm'.getUsersInRoom roomId),
        (rm', gh.2))

/-- Concrete stroke appended first in the replay-order scenario: its
client clock reads 5. -/
def strokeA : Stroke := ⟨"sA", "u1", "#000000", 3, [(0, 0)], true, some 5⟩

/-- Concrete stroke appended second in the replay-order scenario: its
client clock is skewed and reads 3, earlier than strokeA. -/
def strokeB : Stroke := ⟨"sB", "u2", "#111111", 4, [(1, 1)], true, some 3⟩

/-- The log obtained by appending strokeA and then strokeB to a fresh
store; the append (sequence) order is [strokeA, strokeB]. -/
def storeC1 : HistoryStore :=
  ((HistoryStore.empty.addStroke "a1" 10 strokeA).2.addStroke "a2" 9 strokeB).2

/-- A one-action store used to instantiate the undo/redo round trip. -/
def storeC5 : HistoryStore := (HistoryStore.empty.addStroke "w1" 7 strokeA).2

/-- A concrete finished stroke fed to the structural handlers. -/
def demoStroke : Stroke := ⟨"sD", "u9", "#222222", 2, [(4, 4)], true, some 42⟩

/-- State reached by: create room2 beside main, have connection "abcde"
join main, then have the same connection join room2 — exactly what the
join_room handler does on a rejoin, which never calls removeUser for
the previous room. -/
def rmC4 : RoomManager :=
  let rm1 := (RoomManager.init.createRoom "room2" "Second Canvas").2
  let rm2 :=
    match rm1.addUserToRoom "abcde" "main" (fun _ => 0) with
    | Except.ok (_, rm') => rm'
    | Except.error _ => rm1
  match rm2.addUserToRoom "abcde" "room2" (fun _ => 1) with
  | Except.ok (_, rm') => rm'
  | Except.error _ => rm2

/-- A concrete interleaving of appends: two to room a around one to
room b. -/
def opsW : List AppendOp :=
  [⟨"a", "i1", 1, demoStroke, false⟩, ⟨"b", "i2", 2, demoStroke, false⟩,
    ⟨"a", "i3", 3, demoStroke, true⟩]

/-- A concrete registered user for the rename frame-property instance. -/
def uW : User := ⟨"ab", "#ABCDEF", "User-ab"⟩

/-- A concrete registry state with one member in the main room. -/
def rmW : RoomManager :=
  ⟨[("main", ⟨"main", "Main Canvas", ["ab"], [], 0⟩)], [("ab", "main")],
    [("ab", uW)]⟩

end Canvas

namespace Canvas

/-- Map.get after Map.set at the same key yields the new value. -/
theorem mapGet_mapSet_self {α : Type} (k : String) (v : α)
    (m : List (String × α)) : mapGet k (mapSet k v m) = some v := by
  induction m with
  | nil => simp [mapGet, mapSet]
  | cons p rest ih =>
      obtain ⟨k', v'⟩ := p
      by_cases h : k' = k
      · subst h; simp [mapGet, mapSet]
      · simp [mapGet, mapSet, h, ih]

/-- Map.get at a different key is unaffected by Map.set. -/
theorem mapGet_mapSet_ne {α : Type} (k q : String) (h : q ≠ k) (v : α)
    (m : List (String × α)) : mapGet q (mapSet k v m) = mapGet q m := by
  have hkq : ¬(k = q) := fun hh => h hh.symm
  induction m with
  | nil => simp [mapGet, mapSet, hkq]
  | cons p rest ih =>
      obtain ⟨k', v'⟩ := p
      by_cases hk : k' = k
      · subst hk
        simp [mapGet, mapSet, hkq]
      · simp [mapGet, mapSet, hk, ih]

/-- The room snapshot is the history of the stored HistoryStore, or
empty when the room has no store. -/
theorem roomSnapshot_eq_mapGet (q : String) (m : RoomHistories) :
    roomSnapshot q m = ((mapGet q m).getD HistoryStore.empty).history := by
  unfold roomSnapshot getHistoryStore HistoryStore.getHistory
  cases h : mapGet q m <;> simp [h, HistoryStore.empty]

/-- Writing a store for a room sets that room snapshot to its history. -/
theorem roomSnapshot_mapSet_self (r : String) (h : HistoryStore)
    (m : RoomHistories) : roomSnapshot r (mapSet r h m) = h.history := by
  rw [roomSnapshot_eq_mapGet, mapGet_mapSet_self]
  rfl

/-- Writing a store for one room leaves every other room snapshot
unchanged. -/
theorem roomSnapshot_mapSet_ne (q r : String) (hqr : q ≠ r)
    (h : HistoryStore) (m : RoomHistories) :
    roomSnapshot q (mapSet r h m) = roomSnapshot q m := by
  rw [roomSnapshot_eq_mapGet, roomSnapshot_eq_mapGet, mapGet_mapSet_ne _ _ hqr]

/-- Appending through a room adds exactly the corresponding action to
that room snapshot. -/
theorem roomSnapshot_applyAppend_self (m : RoomHistories) (op : AppendOp) :
    roomSnapshot op.room (applyAppend m op) =
      roomSnapshot op.room m ++ [opAction op] := by
  obtain ⟨r, fresh, now, stroke, isErase⟩ := op
  cases isErase <;>
    simp [applyAppend, opAction, HistoryStore.addStroke, HistoryStore.addErase,
      roomSnapshot_mapSet_self, roomSnapshot, getHistoryStore,
      HistoryStore.getHistory, mapGet_mapSet_self]

/-- Appending through one room leaves every other room snapshot
unchanged. -/
theorem roomSnapshot_applyAppend_ne (q : String) (m : RoomHistories)
    (op : AppendOp) (h : q ≠ op.room) :
    roomSnapshot q (applyAppend m op) = roomSnapshot q m := by
  obtain ⟨r, fresh, now, stroke, isErase⟩ := op
  simp only at h
  have hgh : mapGet q (getHistoryStore r m).2 = mapGet q m := by
    unfold getHistoryStore
    cases hr : mapGet r m
    · simp [mapGet_mapSet_ne _ _ h]
    · rfl
  cases isErase <;>
    · rw [applyAppend]
      rw [roomSnapshot_mapSet_ne _ _ h, roomSnapshot_eq_mapGet,
        roomSnapshot_eq_mapGet, hgh]

/-- Replaying a batch of appends: every room snapshot grows by exactly
the actions of the appends addressed to that room, in order. -/
theorem roomSnapshot_applyAppends (ops : List AppendOp) (m : RoomHistories)
    (q : String) :
    roomSnapshot q (applyAppends m ops) =
      roomSnapshot q m ++
        (ops.filter (fun op => decide (op.room = q))).map opAction := by
  induction ops generalizing m with
  | nil => simp [applyAppends]
  | cons op rest ih =>
      show roomSnapshot q (applyAppends (applyAppend m op) rest) = _
      rw [ih]
      by_cases hq : op.room = q
      · subst hq
        rw [roomSnapshot_applyAppend_self]
        simp [List.append_assoc]
      · rw [roomSnapshot_applyAppend_ne _ _ _ (fun hh => hq hh.symm)]
        simp [hq]

/-- Every room snapshot of the fresh server state is empty. -/
theorem roomSnapshot_initial (q : String) :
    roomSnapshot q initialHistories = [] := by
  rw [roomSnapshot_eq_mapGet]
  unfold initialHistories mapGet
  split <;> rfl

/-- A key is always a member of its own idSet insertion. -/
theorem mem_idSet_self (k : String) (l : List String) : k ∈ idSet k l := by
  unfold idSet
  split
  · assumption
  · simp

/-- C1, counterexample.  storeC1 is reached by appending strokeA (whose
client timestamp is 5) and then strokeB (whose client timestamp is 3).
The claim says replay presents strokeA before strokeB because they were
appended in that order; instead both getCurrentState and the client
redrawAll present strokeB first, because replay sorts by the wall-clock
timestamps. -/
theorem replay_order_counterexample :
    storeC1.history =
      [⟨"a1", DrawingActionType.STROKE_DRAW, "u1", 10, strokeA⟩,
        ⟨"a2", DrawingActionType.STROKE_DRAW, "u2", 9, strokeB⟩] ∧
    storeC1.getCurrentState = [strokeB, strokeA] ∧
    storeC1.getCurrentState ≠ [strokeA, strokeB] ∧
    redrawAll storeC1.history = [(strokeB, false), (strokeA, false)] := by
  decide

/-- C1, amended.  Replay is not ordered by assignment (sequence) order:
getCurrentState presents the draw and erase strokes of the log as a
permutation sorted by the stroke wall-clock timestamp, and the client
redrawAll replays the draw and erase actions as a permutation sorted by
the action wall-clock timestamp; an action carrying an earlier
timestamp is presented earlier even when it was appended later. -/
theorem replay_sorted_by_timestamp (s : HistoryStore) :
    s.getCurrentState.Perm
      ((s.history.filter isDrawOrErase).map (fun a => a.data)) ∧
    List.Sorted strokeLe s.getCurrentState ∧
    (redrawOrder s.history).Perm (s.history.filter isDrawOrErase) ∧
    List.Sorted actionLe (redrawOrder s.history) ∧
    redrawAll s.history = (redrawOrder s.history).map
      (fun a => (a.data, decide (a.type = DrawingActionType.STROKE_ERASE))) :=
  ⟨List.perm_insertionSort _ _, List.sorted_insertionSort _ _,
    List.perm_insertionSort _ _, List.sorted_insertionSort _ _, rfl⟩

/-- C5: on a non-empty log, undo immediately followed by redo restores
the entries list exactly — same actions, same ids and timestamps, same
positions — and also restores the redo stack, and the snapshot redo
returns is that restored entries list. -/
theorem undo_then_redo_restores_entries (s : HistoryStore)
    (h : s.history ≠ []) :
    (s.undo.2.redo.2).history = s.history ∧
    s.undo.2.redo.1 = s.history ∧
    (s.undo.2.redo.2).redoStack = s.redoStack := by
  have h1 : s.history.getLast? = some (s.history.getLast h) :=
    List.getLast?_eq_getLast _ h
  refine ⟨?_, ?_, ?_⟩ <;>
    simp only [HistoryStore.undo, h1, HistoryStore.redo, List.getLast?_concat,
      List.dropLast_concat] <;>
    exact List.dropLast_append_getLast h

/-- C5, witness at the one-action store storeC5. -/
theorem undo_then_redo_restores_entries_witness :
    (storeC5.undo.2.redo.2).history = storeC5.history ∧
    storeC5.undo.2.redo.1 = storeC5.history ∧
    (storeC5.undo.2.redo.2).redoStack = storeC5.redoStack :=
  undo_then_redo_restores_entries storeC5 (by decide)

/-- C6: every append — addStroke or addErase — leaves an empty redo
stack unconditionally, and after an undo followed by an append, redo is
a no-op returning the current entries and changing nothing. -/
theorem append_clears_redo_and_redo_noop (s : HistoryStore)
    (f1 f2 : String) (n1 n2 : Int) (d1 d2 : Stroke) :
    ((s.addStroke f1 n1 d1).2).redoStack = [] ∧
    ((s.addErase f1 n1 d1).2).redoStack = [] ∧
    ((s.undo.2.addStroke f2 n2 d2).2).redo =
      (((s.undo.2.addStroke f2 n2 d2).2).history,
        (s.undo.2.addStroke f2 n2 d2).2) ∧
    ((s.undo.2.addErase f2 n2 d2).2).redo =
      (((s.undo.2.addErase f2 n2 d2).2).history,
        (s.undo.2.addErase f2 n2 d2).2) :=
  ⟨rfl, rfl, rfl, rfl⟩

end Canvas

namespace Canvas

/-- C7: for every interleaving of append requests across rooms, each
room snapshot is exactly the actions of the requests addressed to that
room, in their relative order — so appending N actions to session A and
M to session B, in any interleaving, gives snapshots of lengths N and M,
and nothing appended to one session is visible through the other. -/
theorem session_isolation (ops : List AppendOp) (A B : String) (_hAB : A ≠ B) :
    roomSnapshot A (applyAppends initialHistories ops) =
      (ops.filter (fun op => decide (op.room = A))).map opAction ∧
    roomSnapshot B (applyAppends initialHistories ops) =
      (ops.filter (fun op => decide (op.room = B))).map opAction ∧
    (roomSnapshot A (applyAppends initialHistories ops)).length =
      (ops.filter (fun op => decide (op.room = A))).length ∧
    (roomSnapshot B (applyAppends initialHistories ops)).length =
      (ops.filter (fun op => decide (op.room = B))).length := by
  have hA := roomSnapshot_applyAppends ops initialHistories A
  have hB := roomSnapshot_applyAppends ops initialHistories B
  rw [roomSnapshot_initial] at hA hB
  simp only [List.nil_append] at hA hB
  exact ⟨hA, hB, by rw [hA, List.length_map], by rw [hB, List.length_map]⟩

/-- C7, witness: two appends to room a interleaved with one append to
room b yield snapshots of lengths two and one. -/
theorem session_isolation_witness :
    roomSnapshot "a" (applyAppends initialHistories opsW) =
      (opsW.filter (fun op => decide (op.room = "a"))).map opAction ∧
    roomSnapshot "b" (applyAppends initialHistories opsW) =
      (opsW.filter (fun op => decide (op.room = "b"))).map opAction ∧
    (roomSnapshot "a" (applyAppends initialHistories opsW)).length =
      (opsW.filter (fun op => decide (op.room = "a"))).length ∧
    (roomSnapshot "b" (applyAppends initialHistories opsW)).length =
      (opsW.filter (fun op => decide (op.room = "b"))).length :=
  session_isolation opsW "a" "b" (by decide)

/-- C3, counterexample.  A connection joined to the main room submits a
finished stroke on a fresh server: the handler appends the action to the
room log (the snapshot grows to length one) yet its emitted-event list
is empty, so no structural-change event is delivered to any other
member — refuting the claim that the change is reliably delivered to
every currently-joined member. -/
theorem draw_finish_no_broadcast_counterexample :
    (drawFinishHandler (some "main") initialHistories demoStroke "a9" 100).2.1
        = [] ∧
    (roomSnapshot "main"
        (drawFinishHandler (some "main") initialHistories demoStroke "a9"
          100).1).length = 1 := by
  decide

/-- C3, amended.  For a joined connection the draw_finish handler
appends the stroke to the session log and acknowledges the originator,
but broadcasts nothing to the other members — peers see the stroke only
through the incremental draw_line echoes and later history_sync events;
the erase handler, by contrast, does broadcast to the room peers. -/
theorem draw_finish_appends_without_broadcast (r : String)
    (m : RoomHistories) (data : Stroke) (fresh : String) (now : Int) :
    (drawFinishHandler (some r) m data fresh now).2.1 = [] ∧
    (drawFinishHandler (some r) m data fresh now).2.2 = true ∧
    roomSnapshot r (drawFinishHandler (some r) m data fresh now).1 =
      roomSnapshot r m ++
        [⟨fresh, DrawingActionType.STROKE_DRAW, data.userId, now, data⟩] ∧
    (eraseHandler (some r) m data fresh now).2.1 =
      [ServerEvent.broadcastStroke r "erase" data] := by
  refine ⟨rfl, rfl, ?_, rfl⟩
  show roomSnapshot r
      (mapSet r ((getHistoryStore r m).1.addStroke fresh now data).2
        (getHistoryStore r m).2) = _
  rw [roomSnapshot_mapSet_self]
  simp [HistoryStore.addStroke, roomSnapshot, HistoryStore.getHistory]

/-- C8, counterexample.  Each structural handler invoked for a
connection that is in no room returns with the server state unchanged,
an empty emitted-event list, and the acknowledgment callback not
invoked: nothing at all — in particular no error — is sent back to the
caller, refuting the claim that such events are rejected with a
local-only error to the caller. -/
theorem not_joined_no_error_reply_counterexample :
    drawFinishHandler none initialHistories demoStroke "a8" 50 =
      (initialHistories, [], false) ∧
    eraseHandler none initialHistories demoStroke "a8" 50 =
      (initialHistories, [], false) ∧
    undoHandler none initialHistories = (initialHistories, [], false) ∧
    redoHandler none initialHistories = (initialHistories, [], false) ∧
    clearHandler none initialHistories = (initialHistories, [], false) := by
  decide

/-- C8, amended.  Structural events from a connection that is not in a
room are silently ignored: each handler leaves the whole roomHistories
map — hence every session's entries and redoStack — unchanged, emits no
event, and never invokes the acknowledgment callback, so no error and
no reply of any kind reaches the caller. -/
theorem not_joined_events_are_noops (m : RoomHistories) (data : Stroke)
    (fresh : String) (now : Int) :
    drawFinishHandler none m data fresh now = (m, [], false) ∧
    eraseHandler none m data fresh now = (m, [], false) ∧
    undoHandler none m = (m, [], false) ∧
    redoHandler none m = (m, [], false) ∧
    clearHandler none m = (m, [], false) :=
  ⟨rfl, rfl, rfl, rfl, rfl⟩

/-- C2, counterexample.  On a fresh server, joining the session id
roomX — for which no room exists — does not create the session lazily:
it fails with the unknown-session error, refuting the claim that join
succeeds for every sessionId. -/
theorem join_unknown_room_errors :
    joinRoom RoomManager.init initialHistories "socket9" "roomX"
      (fun _ => 0) = Except.error "Room roomX not found" := rfl

end Canvas

namespace Canvas

/-- C2, amended.  join succeeds exactly when a room with the requested
id already exists (the server only ever creates the main room, at
startup): joining an absent room fails with the unknown-room error,
while joining an existing room registers the member — id equal to the
connection id, name derived from its first five characters — and hands
the caller the member, the room's full current log snapshot and the
post-join roster containing the member; on a fresh server the first
join to main returns the empty snapshot and the singleton roster. -/
theorem join_room_behavior (rm : RoomManager) (m : RoomHistories)
    (sock roomId : String) (draws : Fin 6 → Fin 16) :
    (mapGet roomId rm.rooms = none →
      joinRoom rm m sock roomId draws =
        Except.error ("Room " ++ roomId ++ " not found")) ∧
    (∀ room, mapGet roomId rm.rooms = some room →
      ∃ user roster rm',
        joinRoom rm m sock roomId draws =
          Except.ok ((user, (getHistoryStore roomId m).1.getHistory, roster),
            (rm', (getHistoryStore roomId m).2)) ∧
        user.id = sock ∧ user.name = "User-" ++ sock.take 5 ∧
        roster = rm'.getUsersInRoom roomId ∧ user ∈ roster) ∧
    joinRoom RoomManager.init initialHistories sock "main" draws =
      Except.ok
        (((⟨sock, generateRandomColor draws, "User-" ++ sock.take 5⟩ : User),
            [], [⟨sock, generateRandomColor draws, "User-" ++ sock.take 5⟩]),
          (⟨[("main", ⟨"main", "Main Canvas", [sock], [], 0⟩)],
              [(sock, "main")],
              [(sock, ⟨sock, generateRandomColor draws, "User-" ++ sock.take 5⟩)]⟩,
            initialHistories)) := by
  refine ⟨?_, ?_, ?_⟩
  · intro hnone
    simp [joinRoom, RoomManager.addUserToRoom, hnone]
  · intro room hroom
    refine ⟨⟨sock, generateRandomColor draws, "User-" ++ sock.take 5⟩,
      RoomManager.getUsersInRoom
        ⟨mapSet roomId { room with users := idSet sock room.users } rm.rooms,
          mapSet sock roomId rm.userToRoom,
          mapSet sock ⟨sock, generateRandomColor draws, "User-" ++ sock.take 5⟩
            rm.socketToUser⟩ roomId,
      ⟨mapSet roomId { room with users := idSet sock room.users } rm.rooms,
        mapSet sock roomId rm.userToRoom,
        mapSet sock ⟨sock, generateRandomColor draws, "User-" ++ sock.take 5⟩
          rm.socketToUser⟩,
      ?_, rfl, rfl, rfl, ?_⟩
    · simp [joinRoom, RoomManager.addUserToRoom, hroom]
    · show _ ∈ RoomManager.getUsersInRoom _ roomId
      simp only [RoomManager.getUsersInRoom, mapGet_mapSet_self]
      rw [List.mem_filterMap]
      exact ⟨sock, mem_idSet_self sock room.users, mapGet_mapSet_self _ _ _⟩
  · simp [joinRoom, RoomManager.addUserToRoom, RoomManager.init,
      RoomManager.createRoom, mapGet, mapSet, getHistoryStore,
      initialHistories, HistoryStore.empty, HistoryStore.getHistory,
      RoomManager.getUsersInRoom, idSet]

/-- C2, witness: the two outcomes at concrete inputs — joining the
absent room nope fails, and the first join to main on a fresh server
returns the empty log snapshot and the singleton roster. -/
theorem join_room_behavior_witness :
    joinRoom RoomManager.init initialHistories "abcdefgh" "nope"
        (fun _ => 3) = Except.error ("Room " ++ "nope" ++ " not found") ∧
    joinRoom RoomManager.init initialHistories "abcdefgh" "main"
        (fun _ => 3) =
      Except.ok
        (((⟨"abcdefgh", generateRandomColor (fun _ => 3),
              "User-" ++ "abcdefgh".take 5⟩ : User), [],
            [⟨"abcdefgh", generateRandomColor (fun _ => 3),
              "User-" ++ "abcdefgh".take 5⟩]),
          (⟨[("main", ⟨"main", "Main Canvas", ["abcdefgh"], [], 0⟩)],
              [("abcdefgh", "main")],
              [("abcdefgh", ⟨"abcdefgh", generateRandomColor (fun _ => 3),
                  "User-" ++ "abcdefgh".take 5⟩)]⟩,
            initialHistories)) :=
  ⟨(join_room_behavior RoomManager.init initialHistories "abcdefgh" "nope"
      (fun _ => 3)).1 (by decide),
    (join_room_behavior RoomManager.init initialHistories "abcdefgh" "main"
      (fun _ => 3)).2.2⟩

/-- C9: joining an existing room returns a user whose id is the socket
id, whose name is User- followed by the first five characters of the
socket id, and whose color is a seven-character string: a hash sign
followed by six characters drawn from the uppercase hexadecimal
digits. -/
theorem addUserToRoom_user_shape (rm : RoomManager) (sock roomId : String)
    (draws : Fin 6 → Fin 16) (room : Room)
    (h : mapGet roomId rm.rooms = some room) :
    ∃ user rm', rm.addUserToRoom sock roomId draws = Except.ok (user, rm') ∧
      user.id = sock ∧
      user.name = "User-" ++ sock.take 5 ∧
      user.color.length = 7 ∧
      ∃ tail : List Char, user.color = String.mk ('#' :: tail) ∧
        tail.length = 6 ∧ ∀ c ∈ tail, c ∈ hexChars := by
  refine ⟨⟨sock, generateRandomColor draws, "User-" ++ sock.take 5⟩,
    ⟨mapSet roomId { room with users := idSet sock room.users } rm.rooms,
      mapSet sock roomId rm.userToRoom,
      mapSet sock ⟨sock, generateRandomColor draws, "User-" ++ sock.take 5⟩
        rm.socketToUser⟩,
    ?_, rfl, rfl, ?_, ?_⟩
  · simp [RoomManager.addUserToRoom, h]
  · show (generateRandomColor draws).length = 7
    simp [generateRandomColor, String.length]
  · refine ⟨(List.finRange 6).map
      (fun i => hexChars.get ⟨(draws i).val, (draws i).isLt⟩), rfl, by simp, ?_⟩
    intro c hc
    rw [List.mem_map] at hc
    obtain ⟨i, _, rfl⟩ := hc
    exact List.get_mem _ _ _

/-- C9, witness at a concrete socket id, room and draw sequence. -/
theorem addUserToRoom_user_shape_witness :
    ∃ user rm',
      RoomManager.init.addUserToRoom "abcdefgh" "main" (fun _ => 3) =
        Except.ok (user, rm') ∧
      user.id = "abcdefgh" ∧
      user.name = "User-" ++ "abcdefgh".take 5 ∧
      user.color.length = 7 ∧
      ∃ tail : List Char, user.color = String.mk ('#' :: tail) ∧
        tail.length = 6 ∧ ∀ c ∈ tail, c ∈ hexChars :=
  addUserToRoom_user_shape RoomManager.init "abcdefgh" "main" (fun _ => 3)
    ⟨"main", "Main Canvas", [], [], 0⟩ (by decide)

/-- C4: evaluating the code at the failing input.  With rooms main and
room2 both present, connection abcde joins main and then joins room2 —
as the join_room handler does, which never removes the previous
membership (it only leaves the transport-level broadcast group).  The
resulting state lists the connection in the rosters of both rooms at
once, although userToRoom records only room2 — the dual membership the
claim says cannot occur. -/
theorem dual_membership_after_rejoin :
    (rmC4.getUsersInRoom "main").map (fun u => u.id) = ["abcde"] ∧
    (rmC4.getUsersInRoom "room2").map (fun u => u.id) = ["abcde"] ∧
    mapGet "abcde" rmC4.userToRoom = some "room2" := by
  decide

/-- C10: updateUserName changes only the name field of the user
registered for the socket id — the rooms map (member maps and
histories) and the userToRoom map are untouched, every other socket's
user is untouched, and the renamed user keeps its id and color; for an
unregistered socket id the whole state is unchanged. -/
theorem updateUserName_frame (rm : RoomManager) (sock newName : String) :
    (rm.updateUserName sock newName).rooms = rm.rooms ∧
    (rm.updateUserName sock newName).userToRoom = rm.userToRoom ∧
    (∀ k, k ≠ sock →
      mapGet k (rm.updateUserName sock newName).socketToUser =
        mapGet k rm.socketToUser) ∧
    (∀ u, mapGet sock rm.socketToUser = some u →
      mapGet sock (rm.updateUserName sock newName).socketToUser =
        some (User.mk u.id u.color newName)) ∧
    (mapGet sock rm.socketToUser = none → rm.updateUserName sock newName = rm) := by
  cases hm : mapGet sock rm.socketToUser with
  | none =>
      refine ⟨?_, ?_, ?_, ?_, ?_⟩ <;>
        simp [RoomManager.updateUserName, hm]
  | some u0 =>
      refine ⟨?_, ?_, ?_, ?_, ?_⟩
      · simp [RoomManager.updateUserName, hm]
      · simp [RoomManager.updateUserName, hm]
      · intro k hk
        simp only [RoomManager.updateUserName, hm]
        exact mapGet_mapSet_ne _ _ hk _ _
      · intro u hu
        have h2 : u0 = u := Option.some.inj hu
        subst h2
        simp only [RoomManager.updateUserName, hm]
        exact mapGet_mapSet_self _ _ _
      · intro hn
        exact Option.noConfusion hn

/-- C10, witness at a concrete one-member registry: the rename is
visible under the socket key with id and color preserved, and the
rooms map is untouched. -/
theorem updateUserName_frame_witness :
    mapGet "ab" (rmW.updateUserName "ab" "Zed").socketToUser =
      some (User.mk uW.id uW.color "Zed") ∧
    (rmW.updateUserName "ab" "Zed").rooms = rmW.rooms :=
  ⟨(updateUserName_frame rmW "ab" "Zed").2.2.2.1 uW (by decide),
    (updateUserName_frame rmW "ab" "Zed").1⟩

end Canvas
